import Mathlib

/-!
# Open-interval arithmetic (`UOI`, from `OI.cpp`)

Shallow embedding of the numeric core of `OI.cpp`.  A C++ `double` is read as an exact
number: the functions are written once over an arbitrary linearly ordered field, so they
can be evaluated over `ℚ` and reasoned about over `ℝ`.  The libm primitive `pow` is not
part of the repository; every function that calls it takes it as its first argument, and
the theorems instantiate it with the real power function `Real.rpow`.  The same holds for
`exp` (`Real.exp`) and `sqrt` (`Real.sqrt`).  A C++ `int` is an `Int` in the range from
`-2^31` to `2^31 - 1`; where a result can leave that range it is wrapped with `wrap32`.
-/

namespace UOI

section Definitions

variable {α : Type} [LinearOrderedField α]

/-- The constant `UOI::vsn = 0.000001` (the spec calls it `EPS`). -/
def vsn : α := 1 / 1000000

/-- The function `UOI::ToOI` (the spec calls it `normalize`): two guarded early returns,
then the argument itself. -/
def ToOI (n : α) : α :=
  if n < vsn then vsn
  else if n > 1 - vsn then 1 - vsn
  else n

/-- The function `UOI::Invert`: `1 - ToOI(n)`. -/
def Invert (n : α) : α := 1 - ToOI n

/-- The function `UOI::Scale`: `ToOI(source) * ToOI(mod)`. -/
def Scale (source mod : α) : α := ToOI source * ToOI mod

/-- The function `UOI::InvertedScale`: `Invert(Invert(source) * Invert(mod))`. -/
def InvertedScale (source mod : α) : α := Invert (Invert source * Invert mod)

/-- The function `UOI::SafeSigmoid`: `t` starts as `n` and is overwritten by each of the
two guarded assignments in turn. -/
def SafeSigmoid (n : α) : α :=
  let t := n
  let t := if n < -1 + vsn then -1 + vsn else t
  let t := if n > 1 - vsn then 1 - vsn else t
  t

/-- The function `UOI::SigmoidPush`: `pow(ToOI(source), 1.0 / 1 + SafeSigmoid(mod))`, with
the exponent parsed as C++ parses it, `(1.0 / 1) + SafeSigmoid(mod)`. -/
def SigmoidPush (pow : α → α → α) (source mod : α) : α :=
  pow (ToOI source) (1 / 1 + SafeSigmoid mod)

/-- The function `UOI::Grow`: `pow(ToOI(source), Invert(mod))`. -/
def Grow (pow : α → α → α) (source mod : α) : α :=
  pow (ToOI source) (Invert mod)

/-- The function `UOI::Decay`: `pow(ToOI(source), 1.0 / Invert(mod))`. -/
def Decay (pow : α → α → α) (source mod : α) : α :=
  pow (ToOI source) (1 / Invert mod)

/-- The function `nthRoot` of `OI.cpp`: `pow(x, 1.0 / n)`. -/
def nthRoot (pow : α → α → α) (x n : α) : α := pow x (1 / n)

/-- The function `UOI::RandomOI`, with the value drawn from `FMath::FRand()` passed in as
`RandomFloat`; promoting the `float` to `double` is exact. -/
def RandomOI (RandomFloat : α) : α :=
  let RandomDouble := RandomFloat
  RandomDouble * (1 - 2 * vsn) + vsn

/-- The function `UOI::ConstantOI`: `ToOI(n)`. -/
def ConstantOI (n : α) : α := ToOI n

/-- The function `UOI::FromInt32`: `d = 1 / (1 + exp(-vsn * (double)i))`, then `ToOI(d)`. -/
def FromInt32 (exp : α → α) (i : Int) : α :=
  let d := 1 / (1 + exp (-vsn * (i : α)))
  ToOI d

/-- Two's complement wrap of an integer into the 32-bit range from `-2^31` to `2^31 - 1`. -/
def wrap32 (v : Int) : Int := (v + 2 ^ 31) % 2 ^ 32 - 2 ^ 31

/-- The C library `abs` on a 32-bit `int`: the absolute value, wrapped into 32 bits (so
that `abs32 (-2^31) = -2^31`, the one input whose absolute value is not representable). -/
def abs32 (x : Int) : Int := wrap32 (if x < 0 then -x else x)

/-- Unary minus on a 32-bit `int`: the negation, wrapped into 32 bits. -/
def neg32 (x : Int) : Int := wrap32 (-x)

/-- The value of the local `denominator` of `UOI::QuantumOI`, given `s = abs(scale)`. -/
def QuantumOI_denominator (pow : α → α → α) (random upperConfidence lowerConfidence : α)
    (s : Int) : α :=
  -nthRoot pow (1 - ToOI random) (2 * ToOI upperConfidence * (s : α) + 1)
    + nthRoot pow (ToOI random) (2 * ToOI lowerConfidence * (s : α) + 1) + 1

/-- The function `UOI::QuantumOI`. -/
def QuantumOI (pow : α → α → α) (random expectation upperConfidence lowerConfidence : α)
    (scale : Int) : α :=
  let s : Int := abs32 scale
  let numerator : α := 1
  let denominator : α := QuantumOI_denominator pow random upperConfidence lowerConfidence s
  let v := pow (ToOI expectation) (numerator / denominator)
  v

/-- The function `UOI::AccuracyCurve`:
`pow(c, 1.0 / (2.0 * r)) * (1.0 / sqrt(c))` with `r = ToOI(random)`, `c = ToOI(confidence)`. -/
def AccuracyCurve (pow : α → α → α) (sqrt : α → α) (random confidence : α) : α :=
  let r := ToOI random
  let c := ToOI confidence
  let result := pow c (1 / (2 * r)) * (1 / sqrt c)
  result

end Definitions

/-! ## Basic facts about the clamp, over any linearly ordered field -/

section Clamp

variable {α : Type} [LinearOrderedField α]

theorem vsn_pos : (0 : α) < vsn := by
  unfold vsn; positivity

theorem vsn_lt_half : (vsn : α) < 1 / 2 := by
  unfold vsn
  norm_num

theorem vsn_le_one_sub_vsn : (vsn : α) ≤ 1 - vsn := by
  have h : (vsn : α) < 1 / 2 := vsn_lt_half
  linarith

theorem vsn_le_ToOI (n : α) : vsn ≤ ToOI n := by
  unfold ToOI
  split_ifs with h1 h2
  · exact le_rfl
  · exact vsn_le_one_sub_vsn
  · exact not_lt.mp h1

theorem ToOI_le (n : α) : ToOI n ≤ 1 - vsn := by
  unfold ToOI
  split_ifs with h1 h2
  · exact vsn_le_one_sub_vsn
  · exact le_rfl
  · exact not_lt.mp h2

theorem ToOI_pos (n : α) : 0 < ToOI n :=
  lt_of_lt_of_le vsn_pos (vsn_le_ToOI n)

theorem ToOI_lt_one (n : α) : ToOI n < 1 := by
  have h1 := ToOI_le n
  have h2 : (0 : α) < vsn := vsn_pos
  linarith

theorem ToOI_of_mem {n : α} (h1 : vsn ≤ n) (h2 : n ≤ 1 - vsn) : ToOI n = n := by
  unfold ToOI
  rw [if_neg (not_lt.mpr h1), if_neg (not_lt.mpr h2)]

theorem ToOI_of_lt {n : α} (h : n < vsn) : ToOI n = vsn := by
  unfold ToOI
  rw [if_pos h]

theorem ToOI_of_gt {n : α} (h : 1 - vsn < n) : ToOI n = 1 - vsn := by
  unfold ToOI
  have h1 : ¬ n < vsn := not_lt.mpr (le_trans vsn_le_one_sub_vsn h.le)
  rw [if_neg h1, if_pos h]

theorem ToOI_mono {a b : α} (h : a ≤ b) : ToOI a ≤ ToOI b := by
  rcases lt_or_le a vsn with ha | ha
  · rw [ToOI_of_lt ha]; exact vsn_le_ToOI b
  · rcases lt_or_le (1 - vsn) b with hb | hb
    · rw [ToOI_of_gt hb]; exact ToOI_le a
    · rw [ToOI_of_mem ha (le_trans h hb), ToOI_of_mem (le_trans ha h) hb]; exact h

theorem vsn_le_Invert (n : α) : vsn ≤ Invert n := by
  unfold Invert
  have h := ToOI_le n
  linarith

theorem Invert_le (n : α) : Invert n ≤ 1 - vsn := by
  unfold Invert
  have h := vsn_le_ToOI n
  linarith

theorem Invert_pos (n : α) : 0 < Invert n :=
  lt_of_lt_of_le vsn_pos (vsn_le_Invert n)

theorem Invert_lt_one (n : α) : Invert n < 1 := by
  unfold Invert
  have h := ToOI_pos n
  linarith

theorem neg_one_add_vsn_le_SafeSigmoid (n : α) : -1 + vsn ≤ SafeSigmoid n := by
  have hv : (vsn : α) < 1 / 2 := vsn_lt_half
  unfold SafeSigmoid
  simp only []
  split_ifs with h1 h2
  · linarith
  · exact le_rfl
  · exact not_lt.mp h2

theorem SafeSigmoid_le (n : α) : SafeSigmoid n ≤ 1 - vsn := by
  have hv : (vsn : α) < 1 / 2 := vsn_lt_half
  unfold SafeSigmoid
  simp only []
  split_ifs with h1 h2
  · exact le_rfl
  · linarith
  · exact not_lt.mp h1

theorem Scale_pos (a b : α) : 0 < Scale a b :=
  mul_pos (ToOI_pos a) (ToOI_pos b)

theorem Scale_le_left (a b : α) : Scale a b ≤ ToOI a := by
  unfold Scale
  exact mul_le_of_le_one_right (ToOI_pos a).le (ToOI_lt_one b).le

theorem Scale_le_right (a b : α) : Scale a b ≤ ToOI b := by
  unfold Scale
  exact mul_le_of_le_one_left (ToOI_pos b).le (ToOI_lt_one a).le

theorem Scale_le_Scale {a1 a2 b1 b2 : α} (ha : a1 ≤ a2) (hb : b1 ≤ b2) :
    Scale a1 b1 ≤ Scale a2 b2 := by
  unfold Scale
  exact mul_le_mul (ToOI_mono ha) (ToOI_mono hb) (ToOI_pos b1).le (ToOI_pos a2).le

theorem le_InvertedScale_left (a b : α) : ToOI a ≤ InvertedScale a b := by
  have h : Invert a * Invert b ≤ Invert a :=
    mul_le_of_le_one_right (Invert_pos a).le (Invert_lt_one b).le
  have h2 : ToOI (Invert a * Invert b) ≤ ToOI (Invert a) := ToOI_mono h
  rw [ToOI_of_mem (vsn_le_Invert a) (Invert_le a)] at h2
  unfold InvertedScale
  unfold Invert at h2 ⊢
  linarith

theorem le_InvertedScale_right (a b : α) : ToOI b ≤ InvertedScale a b := by
  have h : Invert a * Invert b ≤ Invert b :=
    mul_le_of_le_one_left (Invert_pos b).le (Invert_lt_one a).le
  have h2 : ToOI (Invert a * Invert b) ≤ ToOI (Invert b) := ToOI_mono h
  rw [ToOI_of_mem (vsn_le_Invert b) (Invert_le b)] at h2
  unfold InvertedScale
  unfold Invert at h2 ⊢
  linarith

end Clamp

/-! ## Facts that need the real power function -/

section Power

theorem le_ToOI_of_le {n : ℝ} (h : n ≤ 1 - vsn) : n ≤ ToOI n := by
  rcases lt_or_le n vsn with h1 | h1
  · rw [ToOI_of_lt h1]; exact h1.le
  · rw [ToOI_of_mem h1 h]

theorem ToOI_le_of_le {n : ℝ} (h : vsn ≤ n) : ToOI n ≤ n := by
  rcases lt_or_le (1 - vsn) n with h1 | h1
  · rw [ToOI_of_gt h1]; exact h1.le
  · rw [ToOI_of_mem h h1]

theorem ToOI_lt_Grow (source mod : ℝ) : ToOI source < Grow Real.rpow source mod := by
  have h := Real.rpow_lt_rpow_of_exponent_gt (ToOI_pos source) (ToOI_lt_one source)
    (Invert_lt_one mod)
  rw [Real.rpow_one] at h
  exact h

theorem Grow_lt_one (source mod : ℝ) : Grow Real.rpow source mod < 1 :=
  Real.rpow_lt_one (ToOI_pos source).le (ToOI_lt_one source) (Invert_pos mod)

theorem one_lt_one_div_Invert (mod : ℝ) : 1 < 1 / Invert mod :=
  one_lt_one_div (Invert_pos mod) (Invert_lt_one mod)

theorem Decay_pos (source mod : ℝ) : 0 < Decay Real.rpow source mod :=
  Real.rpow_pos_of_pos (ToOI_pos source) _

theorem Decay_lt_ToOI (source mod : ℝ) : Decay Real.rpow source mod < ToOI source := by
  have h := Real.rpow_lt_rpow_of_exponent_gt (ToOI_pos source) (ToOI_lt_one source)
    (one_lt_one_div_Invert mod)
  rw [Real.rpow_one] at h
  exact h

theorem SigmoidPush_exponent_pos (mod : ℝ) : 0 < 1 / 1 + SafeSigmoid mod := by
  have h1 := neg_one_add_vsn_le_SafeSigmoid mod
  have h2 : (0 : ℝ) < vsn := vsn_pos
  linarith

theorem SigmoidPush_pos (source mod : ℝ) : 0 < SigmoidPush Real.rpow source mod :=
  Real.rpow_pos_of_pos (ToOI_pos source) _

theorem SigmoidPush_lt_one (source mod : ℝ) : SigmoidPush Real.rpow source mod < 1 :=
  Real.rpow_lt_one (ToOI_pos source).le (ToOI_lt_one source) (SigmoidPush_exponent_pos mod)

theorem ToOI_zero : ToOI (0 : ℝ) = vsn := ToOI_of_lt vsn_pos

theorem ToOI_one : ToOI (1 : ℝ) = 1 - vsn :=
  ToOI_of_gt (sub_lt_self 1 vsn_pos)

theorem ToOI_half : ToOI (1 / 2 : ℝ) = 1 / 2 := by
  have h : (vsn : ℝ) < 1 / 2 := vsn_lt_half
  exact ToOI_of_mem h.le (by linarith)

theorem Invert_half : Invert (1 / 2 : ℝ) = 1 / 2 := by
  unfold Invert
  rw [ToOI_half]
  norm_num

theorem vsn_rpow_two_lt : Real.rpow (vsn : ℝ) (1 / (1 / 2)) < vsn := by
  have h := Real.rpow_lt_rpow_of_exponent_gt (vsn_pos : (0 : ℝ) < vsn)
    (by have h : (vsn : ℝ) < 1 / 2 := vsn_lt_half; linarith)
    (by norm_num : (1 : ℝ) < 1 / (1 / 2))
  rw [Real.rpow_one] at h
  exact h

theorem Invert_antitone {m1 m2 : ℝ} (h : m1 ≤ m2) : Invert m2 ≤ Invert m1 := by
  unfold Invert
  have h2 := ToOI_mono h
  linarith

theorem Grow_mono_mod (source : ℝ) {m1 m2 : ℝ} (h : m1 ≤ m2) :
    Grow Real.rpow source m1 ≤ Grow Real.rpow source m2 :=
  Real.rpow_le_rpow_of_exponent_ge (ToOI_pos source) (ToOI_lt_one source).le
    (Invert_antitone h)

theorem Decay_antitone_mod (source : ℝ) {m1 m2 : ℝ} (h : m1 ≤ m2) :
    Decay Real.rpow source m2 ≤ Decay Real.rpow source m1 :=
  Real.rpow_le_rpow_of_exponent_ge (ToOI_pos source) (ToOI_lt_one source).le
    (one_div_le_one_div_of_le (Invert_pos m2) (Invert_antitone h))

end Power

/-! ## The clamp `ToOI` -/

/-- C1: for every real `n`, `ToOI n` (the spec's `normalize`) lies in the closed range
from `vsn` to `1 - vsn`, where `vsn = 1e-6`. -/
theorem ToOI_mem_range (n : ℝ) : (vsn : ℝ) ≤ ToOI n ∧ ToOI n ≤ 1 - vsn :=
  ⟨vsn_le_ToOI n, ToOI_le n⟩

/-- C3: `ToOI` is idempotent: clamping an already clamped real changes nothing. -/
theorem ToOI_idempotent (n : ℝ) : ToOI (ToOI n) = ToOI n :=
  ToOI_of_mem (vsn_le_ToOI n) (ToOI_le n)

/-! ## Ranges of the combinators -/

/-- C2, as stated, fails: `Scale`, `Grow`, `Decay` and `SigmoidPush` do not clamp what
they return.  `Scale 0 0 = vsn * vsn`, `Decay 0 (1/2) = vsn ^ 2` and
`SigmoidPush 0 (1/2) = vsn ^ (3/2)` are below `vsn`, and
`Grow 1 (1/2) = (1 - vsn) ^ (1/2)` is above `1 - vsn`. -/
theorem combinators_leave_range :
    ¬ ((vsn : ℝ) ≤ Scale 0 0 ∧ Scale (0 : ℝ) 0 ≤ 1 - vsn) ∧
    ¬ ((vsn : ℝ) ≤ Grow Real.rpow 1 (1 / 2) ∧ Grow Real.rpow 1 (1 / 2) ≤ 1 - vsn) ∧
    ¬ ((vsn : ℝ) ≤ Decay Real.rpow 0 (1 / 2) ∧ Decay Real.rpow 0 (1 / 2) ≤ 1 - vsn) ∧
    ¬ ((vsn : ℝ) ≤ SigmoidPush Real.rpow 0 (1 / 2) ∧
        SigmoidPush Real.rpow 0 (1 / 2) ≤ 1 - vsn) := by
  have hv0 : (0 : ℝ) < vsn := vsn_pos
  have hv1 : (vsn : ℝ) < 1 := by
    have h : (vsn : ℝ) < 1 / 2 := vsn_lt_half
    linarith
  refine ⟨?_, ?_, ?_, ?_⟩
  · rintro ⟨h, -⟩
    unfold Scale at h
    rw [ToOI_zero] at h
    nlinarith
  · rintro ⟨-, h⟩
    have h2 := ToOI_lt_Grow 1 (1 / 2)
    rw [ToOI_one] at h2
    exact absurd h (not_le.mpr h2)
  · rintro ⟨h, -⟩
    unfold Decay at h
    rw [ToOI_zero, Invert_half] at h
    exact absurd h (not_le.mpr vsn_rpow_two_lt)
  · rintro ⟨h, -⟩
    unfold SigmoidPush at h
    rw [ToOI_zero] at h
    have h2 := Real.rpow_lt_rpow_of_exponent_gt hv0 hv1
      (show (1 : ℝ) < 1 / 1 + SafeSigmoid (1 / 2) by
        have h3 : SafeSigmoid (1 / 2 : ℝ) = 1 / 2 := by
          unfold SafeSigmoid vsn
          norm_num
        rw [h3]; norm_num)
    rw [Real.rpow_one] at h2
    exact absurd h (not_le.mpr h2)

/-- C2, amended: for all real `source` and `mod`, with `pow` the real power function,
`Invert` and `InvertedScale` return a value in the closed range from `vsn` to `1 - vsn`;
`Scale` and `Decay` return a value that is positive and at most `1 - vsn`; `Grow` returns a
value that is at least `vsn` and below `1`; `SigmoidPush` returns a value strictly
between `0` and `1`. -/
theorem combinators_range (source mod : ℝ) :
    ((vsn : ℝ) ≤ Invert source ∧ Invert source ≤ 1 - vsn) ∧
    ((vsn : ℝ) ≤ InvertedScale source mod ∧ InvertedScale source mod ≤ 1 - vsn) ∧
    (0 < Scale source mod ∧ Scale source mod ≤ 1 - vsn) ∧
    (0 < Decay Real.rpow source mod ∧ Decay Real.rpow source mod ≤ 1 - vsn) ∧
    ((vsn : ℝ) ≤ Grow Real.rpow source mod ∧ Grow Real.rpow source mod < 1) ∧
    (0 < SigmoidPush Real.rpow source mod ∧ SigmoidPush Real.rpow source mod < 1) := by
  refine ⟨⟨vsn_le_Invert _, Invert_le _⟩, ⟨vsn_le_Invert _, Invert_le _⟩,
    ⟨Scale_pos _ _, le_trans (Scale_le_left _ _) (ToOI_le _)⟩,
    ⟨Decay_pos _ _, le_trans (Decay_lt_ToOI _ _).le (ToOI_le _)⟩,
    ⟨le_trans (vsn_le_ToOI _) (ToOI_lt_Grow _ _).le, Grow_lt_one _ _⟩,
    ⟨SigmoidPush_pos _ _, SigmoidPush_lt_one _ _⟩⟩

/-! ## `Invert`, `Scale`, `InvertedScale` -/

/-- C4: for every real `n`, `Invert n = 1 - ToOI n`, and inverting twice gives back the
clamped argument, `Invert (Invert n) = ToOI n`. -/
theorem Invert_eq_and_involutive (n : ℝ) :
    Invert n = 1 - ToOI n ∧ Invert (Invert n) = ToOI n := by
  refine ⟨rfl, ?_⟩
  have h : ToOI (Invert n) = Invert n := ToOI_of_mem (vsn_le_Invert n) (Invert_le n)
  have h2 : Invert (Invert n) = 1 - ToOI (Invert n) := rfl
  rw [h2, h]
  unfold Invert
  ring

/-- C5: for all real `a` and `b`, `Scale a b` is at most the smaller of the two clamped
arguments. -/
theorem Scale_le_min (a b : ℝ) : Scale a b ≤ min (ToOI a) (ToOI b) :=
  le_min (Scale_le_left a b) (Scale_le_right a b)

/-- C6: for all real `a` and `b`, `InvertedScale a b` is at least the larger of the two
clamped arguments, whether or not the inner product `Invert a * Invert b` is clamped. -/
theorem max_le_InvertedScale (a b : ℝ) : max (ToOI a) (ToOI b) ≤ InvertedScale a b :=
  max_le (le_InvertedScale_left a b) (le_InvertedScale_right a b)

/-- C7, as stated, fails: `1/5 ≤ 4/5`, yet `Scale (1/5) (1/2) = 1/10` is not at least
`Scale (4/5) (1/2) = 2/5`, and likewise in the second argument. -/
theorem Scale_not_antitone :
    (1 / 5 : ℝ) ≤ 4 / 5 ∧ ¬ (Scale (1 / 5 : ℝ) (1 / 2) ≥ Scale (4 / 5) (1 / 2)) ∧
    ¬ (Scale (1 / 2 : ℝ) (1 / 5) ≥ Scale (1 / 2) (4 / 5)) := by
  unfold Scale ToOI vsn
  norm_num

/-- C7, amended: `Scale` is monotonically non-decreasing in both arguments: for all reals
`a1 ≤ a2` and every `b`, `Scale a1 b ≤ Scale a2 b` and `Scale b a1 ≤ Scale b a2`. -/
theorem Scale_monotone (a1 a2 b : ℝ) (h : a1 ≤ a2) :
    Scale a1 b ≤ Scale a2 b ∧ Scale b a1 ≤ Scale b a2 :=
  ⟨Scale_le_Scale h le_rfl, Scale_le_Scale le_rfl h⟩

/-- Witness for C7 (amended) at `a1 = 1/5`, `a2 = 4/5`, `b = 1/2`. -/
theorem Scale_monotone_witness :
    (1 / 5 : ℝ) ≤ 4 / 5 ∧
    Scale (1 / 5 : ℝ) (1 / 2) ≤ Scale (4 / 5) (1 / 2) ∧
    Scale (1 / 2 : ℝ) (1 / 5) ≤ Scale (1 / 2) (4 / 5) :=
  ⟨by norm_num, Scale_monotone (1 / 5) (4 / 5) (1 / 2) (by norm_num)⟩

/-! ## `Grow` and `Decay` -/

/-- C8, as stated, fails: `source = 1 - 1e-7` lies strictly between `0` and `1`, but it is
clamped down to `1 - vsn` first, and `Grow source (1/2) = (1 - vsn) ^ (1/2)` is not
greater than `source`. -/
theorem Grow_not_gt_source :
    (0 : ℝ) < 1 - 1 / 10000000 ∧ (1 - 1 / 10000000 : ℝ) < 1 ∧
    ¬ (Grow Real.rpow (1 - 1 / 10000000) (1 / 2) > 1 - 1 / 10000000) := by
  refine ⟨by norm_num, by norm_num, ?_⟩
  have h1 : ToOI (1 - 1 / 10000000 : ℝ) = 1 - vsn :=
    ToOI_of_gt (by unfold vsn; norm_num)
  have h2 : Grow Real.rpow (1 - 1 / 10000000) (1 / 2) = Real.sqrt (1 - vsn) := by
    unfold Grow
    rw [h1, Invert_half, Real.sqrt_eq_rpow]
    rfl
  rw [h2, gt_iff_lt, not_lt, Real.sqrt_le_iff]
  unfold vsn
  norm_num

/-- C8, amended: for every real `source` that is at most `1 - vsn` (in particular for
`0 < source ≤ 1 - vsn`) and every real `mod`, `Grow source mod` is strictly greater than
`source`. -/
theorem source_lt_Grow (source mod : ℝ) (h : source ≤ 1 - vsn) :
    source < Grow Real.rpow source mod :=
  lt_of_le_of_lt (le_ToOI_of_le h) (ToOI_lt_Grow source mod)

/-- Witness for C8 (amended) at `source = 1/2`, `mod = 1/2`. -/
theorem source_lt_Grow_witness :
    (1 / 2 : ℝ) ≤ 1 - vsn ∧ (1 / 2 : ℝ) < Grow Real.rpow (1 / 2) (1 / 2) :=
  ⟨by unfold vsn; norm_num, source_lt_Grow (1 / 2) (1 / 2) (by unfold vsn; norm_num)⟩

/-- C9, as stated, fails: `source = 1e-13` lies strictly between `0` and `1`, but it is
clamped up to `vsn` first, and `Decay source (1/2) = vsn ^ 2 = 1e-12` is not less than
`source`. -/
theorem Decay_not_lt_source :
    (0 : ℝ) < 1 / 10000000000000 ∧ (1 / 10000000000000 : ℝ) < 1 ∧
    ¬ (Decay Real.rpow (1 / 10000000000000) (1 / 2) < 1 / 10000000000000) := by
  refine ⟨by norm_num, by norm_num, ?_⟩
  have h1 : ToOI (1 / 10000000000000 : ℝ) = vsn :=
    ToOI_of_lt (by unfold vsn; norm_num)
  have h2 : Decay Real.rpow (1 / 10000000000000) (1 / 2) = (vsn : ℝ) ^ 2 := by
    unfold Decay
    rw [h1, Invert_half, ← Real.rpow_two]
    norm_num
  rw [h2]
  unfold vsn
  norm_num

/-- C9, amended: for every real `source` that is at least `vsn` (in particular for
`vsn ≤ source < 1`) and every real `mod`, `Decay source mod` is strictly less than
`source`. -/
theorem Decay_lt_source (source mod : ℝ) (h : vsn ≤ source) :
    Decay Real.rpow source mod < source :=
  lt_of_lt_of_le (Decay_lt_ToOI source mod) (ToOI_le_of_le h)

/-- Witness for C9 (amended) at `source = 1/2`, `mod = 1/2`. -/
theorem Decay_lt_source_witness :
    (vsn : ℝ) ≤ 1 / 2 ∧ Decay Real.rpow (1 / 2 : ℝ) (1 / 2) < 1 / 2 :=
  ⟨by unfold vsn; norm_num, Decay_lt_source (1 / 2) (1 / 2) (by unfold vsn; norm_num)⟩

/-- C10: for every real `source` and all reals `mod1 ≤ mod2`,
`Grow source mod1 ≤ Grow source mod2` and `Decay source mod1 ≥ Decay source mod2`. -/
theorem Grow_Decay_monotone_in_mod (source mod1 mod2 : ℝ) (h : mod1 ≤ mod2) :
    Grow Real.rpow source mod1 ≤ Grow Real.rpow source mod2 ∧
    Decay Real.rpow source mod1 ≥ Decay Real.rpow source mod2 :=
  ⟨Grow_mono_mod source h, Decay_antitone_mod source h⟩

/-- Witness for C10 at `source = 1/2`, `mod1 = 1/4`, `mod2 = 3/4`. -/
theorem Grow_Decay_monotone_in_mod_witness :
    (1 / 4 : ℝ) ≤ 3 / 4 ∧
    Grow Real.rpow (1 / 2 : ℝ) (1 / 4) ≤ Grow Real.rpow (1 / 2) (3 / 4) ∧
    Decay Real.rpow (1 / 2 : ℝ) (1 / 4) ≥ Decay Real.rpow (1 / 2) (3 / 4) :=
  ⟨by norm_num, Grow_Decay_monotone_in_mod (1 / 2) (1 / 4) (3 / 4) (by norm_num)⟩

/-! ## Helper facts for `RandomOI`, `QuantumOI`, `AccuracyCurve` -/

section Curves

theorem abs32_zero : abs32 0 = 0 := by decide

theorem abs32_nonneg {scale : ℤ} (h1 : -2 ^ 31 < scale) (h2 : scale < 2 ^ 31) :
    0 ≤ abs32 scale := by
  unfold abs32 wrap32
  split_ifs with h <;> omega

theorem nthRoot_one (x : ℝ) : nthRoot Real.rpow x 1 = x := by
  unfold nthRoot
  rw [div_one]
  exact Real.rpow_one x

theorem QuantumOI_denominator_zero (random upperConfidence lowerConfidence : ℝ) :
    QuantumOI_denominator Real.rpow random upperConfidence lowerConfidence 0
      = 2 * ToOI random := by
  unfold QuantumOI_denominator
  rw [Int.cast_zero, mul_zero, mul_zero, zero_add, nthRoot_one, nthRoot_one]
  ring

theorem QuantumOI_zero (random expectation upperConfidence lowerConfidence : ℝ) :
    QuantumOI Real.rpow random expectation upperConfidence lowerConfidence 0
      = Real.rpow (ToOI expectation) (1 / (2 * ToOI random)) := by
  unfold QuantumOI
  simp only []
  rw [abs32_zero, QuantumOI_denominator_zero]

theorem QuantumOI_half_zero (e c1 c2 : ℝ) :
    QuantumOI Real.rpow (1 / 2) e c1 c2 0 = ToOI e := by
  rw [QuantumOI_zero, ToOI_half]
  have h : (1 : ℝ) / (2 * (1 / 2)) = 1 := by norm_num
  rw [h]
  exact Real.rpow_one _

theorem nthRoot_pos {x : ℝ} (hx : 0 < x) (n : ℝ) : 0 < nthRoot Real.rpow x n :=
  Real.rpow_pos_of_pos hx _

theorem nthRoot_lt_one {x n : ℝ} (hx0 : 0 < x) (hx1 : x < 1) (hn : 0 < n) :
    nthRoot Real.rpow x n < 1 :=
  Real.rpow_lt_one hx0.le hx1 (one_div_pos.mpr hn)

theorem QuantumOI_exponent_pos (confidence : ℝ) {s : ℤ} (hs : 0 ≤ s) :
    (0 : ℝ) < 2 * ToOI confidence * (s : ℝ) + 1 := by
  have h1 : (0 : ℝ) ≤ (s : ℝ) := Int.cast_nonneg.mpr hs
  have h2 := ToOI_pos confidence
  have h3 : 0 ≤ 2 * ToOI confidence * (s : ℝ) := by positivity
  linarith

theorem denominator_pos_of_abs_nonneg (random upperConfidence lowerConfidence : ℝ)
    {s : ℤ} (hs : 0 ≤ s) :
    0 < QuantumOI_denominator Real.rpow random upperConfidence lowerConfidence s := by
  unfold QuantumOI_denominator
  have h1 : nthRoot Real.rpow (1 - ToOI random) (2 * ToOI upperConfidence * (s : ℝ) + 1) < 1 :=
    nthRoot_lt_one (Invert_pos random) (Invert_lt_one random)
      (QuantumOI_exponent_pos upperConfidence hs)
  have h2 : 0 < nthRoot Real.rpow (ToOI random) (2 * ToOI lowerConfidence * (s : ℝ) + 1) :=
    nthRoot_pos (ToOI_pos random) _
  linarith

theorem AccuracyCurve_eq (random confidence : ℝ) :
    AccuracyCurve Real.rpow Real.sqrt random confidence
      = ToOI confidence ^ (1 / (2 * ToOI random)) * ToOI confidence ^ (-(1 / 2) : ℝ) := by
  unfold AccuracyCurve
  simp only []
  rw [Real.rpow_neg (ToOI_pos confidence).le, ← Real.sqrt_eq_rpow]
  simp only [one_div, Real.rpow_eq_pow]

theorem AccuracyCurve_half (confidence : ℝ) :
    AccuracyCurve Real.rpow Real.sqrt (1 / 2) confidence = Real.sqrt (ToOI confidence) := by
  unfold AccuracyCurve
  simp only []
  rw [ToOI_half]
  have h : (1 : ℝ) / (2 * (1 / 2)) = 1 := by norm_num
  have h2 : Real.rpow (ToOI confidence) 1 = ToOI confidence := Real.rpow_one _
  rw [h, h2, mul_one_div, Real.div_sqrt]

theorem AccuracyCurve_mono {r1 r2 : ℝ} (confidence : ℝ) (h : r1 ≤ r2) :
    AccuracyCurve Real.rpow Real.sqrt r1 confidence
      ≤ AccuracyCurve Real.rpow Real.sqrt r2 confidence := by
  unfold AccuracyCurve
  simp only []
  have hr : 1 / (2 * ToOI r2) ≤ 1 / (2 * ToOI r1) :=
    one_div_le_one_div_of_le (by have := ToOI_pos r1; linarith)
      (by have := ToOI_mono h; linarith)
  have hp : Real.rpow (ToOI confidence) (1 / (2 * ToOI r1))
      ≤ Real.rpow (ToOI confidence) (1 / (2 * ToOI r2)) :=
    Real.rpow_le_rpow_of_exponent_ge (ToOI_pos confidence) (ToOI_lt_one confidence).le hr
  have hs : 0 ≤ 1 / Real.sqrt (ToOI confidence) :=
    one_div_nonneg.mpr (Real.sqrt_nonneg _)
  exact mul_le_mul_of_nonneg_right hp hs

theorem SafeSigmoid_half : SafeSigmoid (1 / 2 : ℝ) = 1 / 2 := by
  unfold SafeSigmoid vsn
  norm_num

end Curves

/-! ## Helper facts for `FromInt32` -/

section Logistic

theorem exp_twenty_gt : (1000000 : ℝ) < Real.exp 20 := by
  have h1 : (2 : ℝ) ≤ Real.exp 1 := by
    have h := Real.add_one_le_exp (1 : ℝ)
    linarith
  have h2 : Real.exp 20 = Real.exp 1 ^ 20 := by
    rw [← Real.exp_nat_mul]
    norm_num
  rw [h2]
  calc (1000000 : ℝ) < 2 ^ 20 := by norm_num
    _ ≤ Real.exp 1 ^ 20 := pow_le_pow_left₀ (by norm_num) h1 20

theorem ToOI_one_sub (n : ℝ) : ToOI (1 - n) = 1 - ToOI n := by
  rcases lt_or_le n vsn with h1 | h1
  · rw [ToOI_of_lt h1, ToOI_of_gt (by linarith)]
  · rcases lt_or_le (1 - vsn) n with h2 | h2
    · rw [ToOI_of_gt h2, ToOI_of_lt (by linarith)]
      ring
    · rw [ToOI_of_mem h1 h2, ToOI_of_mem (by linarith) (by linarith)]

theorem FromInt32_eq (i : ℤ) :
    FromInt32 Real.exp i = ToOI (1 / (1 + Real.exp (-vsn * (i : ℝ)))) := rfl

theorem logistic_lt {i j : ℤ} (h : i < j) :
    1 / (1 + Real.exp (-vsn * (i : ℝ))) < 1 / (1 + Real.exp (-vsn * (j : ℝ))) := by
  have hv : (0 : ℝ) < vsn := vsn_pos
  have hij : (i : ℝ) < (j : ℝ) := Int.cast_lt.mpr h
  have he : Real.exp (-vsn * (j : ℝ)) < Real.exp (-vsn * (i : ℝ)) :=
    Real.exp_lt_exp.mpr (by nlinarith)
  have hp := Real.exp_pos (-vsn * (j : ℝ))
  exact one_div_lt_one_div_of_lt (by linarith) (by linarith)

theorem logistic_neg (i : ℤ) :
    1 / (1 + Real.exp (-vsn * ((-i : ℤ) : ℝ))) = 1 - 1 / (1 + Real.exp (-vsn * (i : ℝ))) := by
  have hp := Real.exp_pos (-vsn * (i : ℝ))
  have h : -vsn * ((-i : ℤ) : ℝ) = -(-vsn * (i : ℝ)) := by
    rw [Int.cast_neg]
    ring
  rw [h, Real.exp_neg]
  field_simp
  ring

theorem FromInt32_le_of_le {i j : ℤ} (h : i ≤ j) :
    FromInt32 Real.exp i ≤ FromInt32 Real.exp j := by
  rcases h.lt_or_eq with h1 | h1
  · exact ToOI_mono (logistic_lt h1).le
  · rw [h1]

theorem FromInt32_add_neg (i : ℤ) :
    FromInt32 Real.exp i + FromInt32 Real.exp (-i) = 1 := by
  rw [FromInt32_eq, FromInt32_eq, logistic_neg, ToOI_one_sub]
  ring

theorem FromInt32_of_large {i : ℤ} (h : 20000000 ≤ i) :
    FromInt32 Real.exp i = 1 - vsn := by
  have hi : (20000000 : ℝ) ≤ (i : ℝ) := by exact_mod_cast h
  have he : Real.exp (-vsn * (i : ℝ)) ≤ Real.exp (-20) :=
    Real.exp_le_exp.mpr (by unfold vsn; linarith)
  have h20 : Real.exp (-20) < 1 / 1000000 := by
    rw [Real.exp_neg, inv_eq_one_div]
    exact one_div_lt_one_div_of_lt (by norm_num) exp_twenty_gt
  have hp := Real.exp_pos (-vsn * (i : ℝ))
  rw [FromInt32_eq]
  apply ToOI_of_gt
  rw [lt_div_iff₀ (by linarith)]
  generalize Real.exp (-vsn * (i : ℝ)) = t at he hp ⊢
  have hv : (vsn : ℝ) = 1 / 1000000 := rfl
  rw [hv]
  linarith

theorem FromInt32_of_small {i : ℤ} (h : i ≤ -20000000) :
    FromInt32 Real.exp i = vsn := by
  have h1 := FromInt32_add_neg i
  have h2 : FromInt32 Real.exp (-i) = 1 - vsn := FromInt32_of_large (by omega)
  rw [h2] at h1
  linarith

theorem FromInt32_zero : FromInt32 Real.exp 0 = 1 / 2 := by
  rw [FromInt32_eq, Int.cast_zero, mul_zero, Real.exp_zero]
  have h : (1 : ℝ) / (1 + 1) = 1 / 2 := by norm_num
  rw [h, ToOI_half]

theorem neg32_eq_neg {i : ℤ} (h1 : -2 ^ 31 < i) (h2 : i < 2 ^ 31) : neg32 i = -i := by
  unfold neg32 wrap32
  omega

theorem exp_sixteenth_lt : Real.exp (13815509 / 16000000) < 23713735 / 10000000 := by
  have hb := @Real.exp_bound' (13815509 / 16000000) (by norm_num) (by norm_num) 12
    (by norm_num)
  refine lt_of_le_of_lt hb ?_
  simp only [Finset.sum_range_succ, Finset.sum_range_zero, Nat.factorial]
  norm_num

theorem lt_exp_sixteenth : (23713736 / 10000000 : ℝ) < Real.exp (13815510 / 16000000) := by
  have hb := @Real.sum_le_exp_of_nonneg (13815510 / 16000000) (by norm_num) 12
  refine lt_of_lt_of_le ?_ hb
  simp only [Finset.sum_range_succ, Finset.sum_range_zero, Nat.factorial]
  norm_num

theorem exp_threshold_lt : Real.exp (13815509 / 1000000) < 999999 := by
  have hx : (13815509 / 1000000 : ℝ) = ((16 : ℕ) : ℝ) * (13815509 / 16000000) := by
    norm_num
  rw [hx, Real.exp_nat_mul]
  calc Real.exp (13815509 / 16000000) ^ 16 < (23713735 / 10000000 : ℝ) ^ 16 :=
        pow_lt_pow_left₀ exp_sixteenth_lt (Real.exp_pos _).le (by norm_num)
    _ < 999999 := by norm_num

theorem lt_exp_threshold : (999999 : ℝ) < Real.exp (13815510 / 1000000) := by
  have hx : (13815510 / 1000000 : ℝ) = ((16 : ℕ) : ℝ) * (13815510 / 16000000) := by
    norm_num
  rw [hx, Real.exp_nat_mul]
  calc (999999 : ℝ) < (23713736 / 10000000 : ℝ) ^ 16 := by norm_num
    _ < Real.exp (13815510 / 16000000) ^ 16 :=
        pow_lt_pow_left₀ lt_exp_sixteenth (by norm_num) (by norm_num)

theorem logistic_lt_iff_exp (x : ℝ) :
    1 / (1 + Real.exp (-x)) < 1 - (vsn : ℝ) ↔ Real.exp x < 999999 := by
  have hp := Real.exp_pos x
  have hv : (vsn : ℝ) = 1 / 1000000 := rfl
  rw [Real.exp_neg, hv, div_lt_iff₀ (by positivity)]
  constructor
  · intro h
    have h2 : (1 - 1 / 1000000 : ℝ) * (1 + (Real.exp x)⁻¹) * Real.exp x
        = (1 - 1 / 1000000) * (Real.exp x + 1) := by
      field_simp
      ring
    have h3 := mul_lt_mul_of_pos_right h hp
    rw [h2] at h3
    linarith
  · intro h
    have h2 : (999999 : ℝ)⁻¹ < (Real.exp x)⁻¹ := inv_strictAnti₀ hp h
    linarith

theorem logistic_lt_iff (i : ℤ) :
    1 / (1 + Real.exp (-vsn * (i : ℝ))) < 1 - (vsn : ℝ) ↔ i ≤ 13815509 := by
  have hv : (vsn : ℝ) = 1 / 1000000 := rfl
  have hx : -vsn * (i : ℝ) = -(vsn * (i : ℝ)) := by ring
  rw [hx, logistic_lt_iff_exp]
  constructor
  · intro h
    by_contra hc
    have hi : (13815510 : ℤ) ≤ i := by omega
    have hi2 : (13815510 : ℝ) ≤ (i : ℝ) := by exact_mod_cast hi
    have he : Real.exp (13815510 / 1000000) ≤ Real.exp (vsn * (i : ℝ)) :=
      Real.exp_le_exp.mpr (by rw [hv]; linarith)
    have ht := lt_exp_threshold
    linarith
  · intro h
    have hi2 : (i : ℝ) ≤ 13815509 := by exact_mod_cast h
    have he : Real.exp (vsn * (i : ℝ)) ≤ Real.exp (13815509 / 1000000) :=
      Real.exp_le_exp.mpr (by rw [hv]; linarith)
    exact lt_of_le_of_lt he exp_threshold_lt

theorem vsn_lt_logistic_iff (j : ℤ) :
    (vsn : ℝ) < 1 / (1 + Real.exp (-vsn * (j : ℝ))) ↔ -13815509 ≤ j := by
  have h := logistic_lt_iff (-j)
  rw [logistic_neg] at h
  constructor
  · intro h1
    have h2 := h.mp (by linarith)
    omega
  · intro h1
    have h2 := h.mpr (by omega)
    linarith

theorem ToOI_lt_ToOI_iff {a b : ℝ} (h : a < b) :
    ToOI a < ToOI b ↔ vsn < b ∧ a < 1 - vsn := by
  have hv : (vsn : ℝ) < 1 / 2 := vsn_lt_half
  constructor
  · intro hlt
    constructor
    · by_contra hc
      have hb : b ≤ vsn := not_lt.mp hc
      have h1 : ToOI a = vsn := ToOI_of_lt (lt_of_lt_of_le h hb)
      have h2 := vsn_le_ToOI a
      have h3 : ToOI b ≤ vsn := by
        rcases hb.lt_or_eq with h4 | h4
        · rw [ToOI_of_lt h4]
        · rw [h4, ToOI_of_mem le_rfl vsn_le_one_sub_vsn]
      linarith
    · by_contra hc
      have ha : 1 - vsn ≤ a := not_lt.mp hc
      have h1 : ToOI b = 1 - vsn := ToOI_of_gt (lt_of_le_of_lt ha h)
      have h3 : 1 - vsn ≤ ToOI a := by
        rcases ha.lt_or_eq with h4 | h4
        · rw [ToOI_of_gt h4]
        · rw [← h4, ToOI_of_mem vsn_le_one_sub_vsn le_rfl]
      linarith
  · rintro ⟨hb, ha⟩
    have h1 : ToOI a ≤ max a vsn := by
      rcases lt_or_le a vsn with h2 | h2
      · rw [ToOI_of_lt h2]; exact le_max_right _ _
      · rw [ToOI_of_mem h2 ha.le]; exact le_max_left _ _
    have h2 : min b (1 - vsn) ≤ ToOI b := by
      rcases lt_or_le (1 - vsn) b with h3 | h3
      · rw [ToOI_of_gt h3]; exact min_le_right _ _
      · rw [ToOI_of_mem hb.le h3]; exact min_le_left _ _
    have h3 : max a vsn < min b (1 - vsn) :=
      max_lt (lt_min h ha) (lt_min hb (by linarith))
    exact lt_of_le_of_lt h1 (lt_of_lt_of_le h3 h2)

theorem FromInt32_lt_iff_logistic {i j : ℤ} (h : i < j) :
    FromInt32 Real.exp i < FromInt32 Real.exp j ↔
      (vsn : ℝ) < 1 / (1 + Real.exp (-vsn * (j : ℝ))) ∧
        1 / (1 + Real.exp (-vsn * (i : ℝ))) < 1 - vsn := by
  rw [FromInt32_eq, FromInt32_eq]
  exact ToOI_lt_ToOI_iff (logistic_lt h)

theorem FromInt32_lt_iff {i j : ℤ} (h : i < j) :
    FromInt32 Real.exp i < FromInt32 Real.exp j ↔ i ≤ 13815509 ∧ -13815509 ≤ j := by
  rw [FromInt32_lt_iff_logistic h, vsn_lt_logistic_iff, logistic_lt_iff]
  exact And.comm

end Logistic

/-! ## `RandomOI` -/

/-- C13: with the random draw passed in as `u`, for every real `u` with `0 ≤ u < 1` the
value `RandomOI u = u * (1 - 2 * vsn) + vsn` lies in the closed range from `vsn` to
`1 - vsn`, so `ToOI` leaves it unchanged. -/
theorem RandomOI_mem_range (u : ℝ) (h0 : 0 ≤ u) (h1 : u < 1) :
    RandomOI u = u * (1 - 2 * vsn) + vsn ∧
    ((vsn : ℝ) ≤ RandomOI u ∧ RandomOI u ≤ 1 - vsn) ∧
    ToOI (RandomOI u) = RandomOI u := by
  have hv : (vsn : ℝ) < 1 / 2 := vsn_lt_half
  have hlo : (vsn : ℝ) ≤ RandomOI u := by
    unfold RandomOI
    simp only []
    nlinarith
  have hhi : RandomOI u ≤ 1 - vsn := by
    unfold RandomOI
    simp only []
    nlinarith
  exact ⟨rfl, ⟨hlo, hhi⟩, ToOI_of_mem hlo hhi⟩

/-- Witness for C13 at `u = 1/2`. -/
theorem RandomOI_mem_range_witness :
    ((0 : ℝ) ≤ 1 / 2 ∧ (1 / 2 : ℝ) < 1) ∧
    RandomOI (1 / 2 : ℝ) = 1 / 2 * (1 - 2 * vsn) + vsn ∧
    ((vsn : ℝ) ≤ RandomOI (1 / 2) ∧ RandomOI (1 / 2 : ℝ) ≤ 1 - vsn) ∧
    ToOI (RandomOI (1 / 2 : ℝ)) = RandomOI (1 / 2) :=
  ⟨by norm_num, RandomOI_mem_range (1 / 2) (by norm_num) (by norm_num)⟩

/-! ## `QuantumOI` and `AccuracyCurve` -/

/-- C14: with `scale = 0` the confidence bounds drop out of `QuantumOI`: the result is
`ToOI expectation ^ (1 / (2 * ToOI random))`; at `random = 1/2` it is `ToOI e`, and
`QuantumOI (1/2) (1/2) (1/2) (1/2) 0 = 1/2`. -/
theorem QuantumOI_scale_zero (random expectation upperConfidence lowerConfidence e c : ℝ) :
    QuantumOI Real.rpow random expectation upperConfidence lowerConfidence 0
      = ToOI expectation ^ (1 / (2 * ToOI random)) ∧
    QuantumOI Real.rpow (1 / 2) e c c 0 = ToOI e ∧
    QuantumOI Real.rpow (1 / 2 : ℝ) (1 / 2) (1 / 2) (1 / 2) 0 = 1 / 2 := by
  refine ⟨QuantumOI_zero _ _ _ _, QuantumOI_half_zero _ _ _, ?_⟩
  rw [QuantumOI_half_zero, ToOI_half]

/-- C15: for every real confidence `c`, `AccuracyCurve (1/2) c` is the square root of
`ToOI c`; at `c = 0.81` it is `0.9`. -/
theorem AccuracyCurve_at_half (c : ℝ) :
    AccuracyCurve Real.rpow Real.sqrt (1 / 2) c = Real.sqrt (ToOI c) ∧
    AccuracyCurve Real.rpow Real.sqrt (1 / 2) (81 / 100) = 9 / 10 := by
  refine ⟨AccuracyCurve_half c, ?_⟩
  have h1 : ToOI (81 / 100 : ℝ) = 81 / 100 :=
    ToOI_of_mem (by unfold vsn; norm_num) (by unfold vsn; norm_num)
  have h2 : (81 / 100 : ℝ) = (9 / 10) ^ 2 := by norm_num
  rw [AccuracyCurve_half, h1, h2, Real.sqrt_sq (by norm_num)]

/-- C16: for every real confidence, `AccuracyCurve` is non-decreasing in `random`: for all
reals `r1 ≤ r2`, `AccuracyCurve r1 confidence ≤ AccuracyCurve r2 confidence`; and its value
is `ToOI confidence ^ (1 / (2 * ToOI random)) * ToOI confidence ^ (-1/2)`. -/
theorem AccuracyCurve_monotone (r1 r2 confidence : ℝ) (h : r1 ≤ r2) :
    AccuracyCurve Real.rpow Real.sqrt r1 confidence
      ≤ AccuracyCurve Real.rpow Real.sqrt r2 confidence ∧
    AccuracyCurve Real.rpow Real.sqrt r1 confidence
      = ToOI confidence ^ (1 / (2 * ToOI r1)) * ToOI confidence ^ (-(1 / 2) : ℝ) ∧
    AccuracyCurve Real.rpow Real.sqrt r2 confidence
      = ToOI confidence ^ (1 / (2 * ToOI r2)) * ToOI confidence ^ (-(1 / 2) : ℝ) :=
  ⟨AccuracyCurve_mono confidence h, AccuracyCurve_eq r1 confidence,
    AccuracyCurve_eq r2 confidence⟩

/-- Witness for C16 at `r1 = 1/4`, `r2 = 3/4`, `confidence = 1/2`. -/
theorem AccuracyCurve_monotone_witness :
    (1 / 4 : ℝ) ≤ 3 / 4 ∧
    AccuracyCurve Real.rpow Real.sqrt (1 / 4) (1 / 2)
      ≤ AccuracyCurve Real.rpow Real.sqrt (3 / 4) (1 / 2) ∧
    AccuracyCurve Real.rpow Real.sqrt (1 / 4) (1 / 2)
      = ToOI (1 / 2 : ℝ) ^ (1 / (2 * ToOI (1 / 4 : ℝ))) * ToOI (1 / 2 : ℝ) ^ (-(1 / 2) : ℝ) ∧
    AccuracyCurve Real.rpow Real.sqrt (3 / 4) (1 / 2)
      = ToOI (1 / 2 : ℝ) ^ (1 / (2 * ToOI (3 / 4 : ℝ))) * ToOI (1 / 2 : ℝ) ^ (-(1 / 2) : ℝ) :=
  ⟨by norm_num, AccuracyCurve_monotone (1 / 4) (3 / 4) (1 / 2) (by norm_num)⟩

/-- C19: for every 32-bit `scale` other than `-2^31` and all real `random`, `expectation`,
`upperConfidence`, `lowerConfidence`, the denominator computed inside `QuantumOI` is
strictly positive, `QuantumOI` is `ToOI expectation` raised to one over that denominator,
and the result lies strictly between `0` and `1`. -/
theorem QuantumOI_denominator_pos
    (random expectation upperConfidence lowerConfidence : ℝ) (scale : ℤ)
    (h1 : -2 ^ 31 < scale) (h2 : scale < 2 ^ 31) :
    0 < QuantumOI_denominator Real.rpow random upperConfidence lowerConfidence (abs32 scale) ∧
    QuantumOI Real.rpow random expectation upperConfidence lowerConfidence scale
      = ToOI expectation ^
        (1 / QuantumOI_denominator Real.rpow random upperConfidence lowerConfidence
          (abs32 scale)) ∧
    0 < QuantumOI Real.rpow random expectation upperConfidence lowerConfidence scale ∧
    QuantumOI Real.rpow random expectation upperConfidence lowerConfidence scale < 1 := by
  have hd := denominator_pos_of_abs_nonneg random upperConfidence lowerConfidence
    (abs32_nonneg h1 h2)
  refine ⟨hd, rfl, ?_, ?_⟩
  · exact Real.rpow_pos_of_pos (ToOI_pos expectation) _
  · exact Real.rpow_lt_one (ToOI_pos expectation).le (ToOI_lt_one expectation)
      (one_div_pos.mpr hd)

/-- Witness for C19 at `scale = -3` with all four real arguments `1/2`. -/
theorem QuantumOI_denominator_pos_witness :
    (-(2 : ℤ) ^ 31 < -3 ∧ (-3 : ℤ) < 2 ^ 31) ∧
    0 < QuantumOI_denominator Real.rpow (1 / 2) (1 / 2) (1 / 2) (abs32 (-3)) ∧
    0 < QuantumOI Real.rpow (1 / 2) (1 / 2) (1 / 2) (1 / 2) (-3) ∧
    QuantumOI Real.rpow (1 / 2) (1 / 2) (1 / 2) (1 / 2) (-3) < 1 :=
  have h := QuantumOI_denominator_pos (1 / 2) (1 / 2) (1 / 2) (1 / 2) (-3)
    (by norm_num) (by norm_num)
  ⟨by norm_num, h.1, h.2.2.1, h.2.2.2⟩

/-! ## `SigmoidPush`, commutativity, and the bracket around the clamped source -/

/-- C17: for all real `source` and `mod`, `SigmoidPush source mod` is `ToOI source` raised
to `1 + SafeSigmoid mod`, where `SafeSigmoid mod` is `mod` clamped into the range from
`-1 + vsn` to `1 - vsn`; this is not the exponent `1 / (1 + SafeSigmoid mod)`, as the two
differ at `source = mod = 1/2`. -/
theorem SigmoidPush_exponent (source mod : ℝ) :
    SigmoidPush Real.rpow source mod = ToOI source ^ (1 + SafeSigmoid mod) ∧
    SafeSigmoid mod = max (-1 + vsn) (min mod (1 - vsn)) ∧
    SigmoidPush Real.rpow (1 / 2) (1 / 2)
      ≠ ToOI (1 / 2 : ℝ) ^ (1 / (1 + SafeSigmoid (1 / 2 : ℝ))) := by
  have hv : (vsn : ℝ) < 1 / 2 := vsn_lt_half
  refine ⟨?_, ?_, ?_⟩
  · unfold SigmoidPush
    rw [div_one]
    rfl
  · unfold SafeSigmoid
    simp only []
    split_ifs with h1 h2
    · rw [min_eq_right h1.le, max_eq_right (by linarith)]
    · rw [min_eq_left (not_lt.mp h1), max_eq_left h2.le]
    · rw [min_eq_left (not_lt.mp h1), max_eq_right (not_lt.mp h2)]
  · unfold SigmoidPush
    rw [SafeSigmoid_half, ToOI_half]
    have h := Real.rpow_lt_rpow_of_exponent_gt (by norm_num : (0 : ℝ) < 1 / 2)
      (by norm_num : (1 / 2 : ℝ) < 1)
      (by norm_num : (1 : ℝ) / (1 + 1 / 2) < 1 / 1 + 1 / 2)
    exact ne_of_lt h

/-- C18: `Scale` and `InvertedScale` are commutative on the reals. -/
theorem Scale_InvertedScale_comm (a b : ℝ) :
    Scale a b = Scale b a ∧ InvertedScale a b = InvertedScale b a := by
  unfold InvertedScale Scale
  exact ⟨mul_comm _ _, by rw [mul_comm]⟩

/-- C20: for all real `source` and `mod`, with no precondition,
`0 < Decay source mod < ToOI source < Grow source mod < 1`. -/
theorem Decay_lt_ToOI_lt_Grow (source mod : ℝ) :
    0 < Decay Real.rpow source mod ∧
    Decay Real.rpow source mod < ToOI source ∧
    ToOI source < Grow Real.rpow source mod ∧
    Grow Real.rpow source mod < 1 :=
  ⟨Decay_pos source mod, Decay_lt_ToOI source mod, ToOI_lt_Grow source mod,
    Grow_lt_one source mod⟩

/-! ## `FromInt32` -/

/-- C11, as stated, fails: `20000000 < 20000001` are both 32-bit integers, but the
logistic value of each is above `1 - vsn`, so `ToOI` returns `1 - vsn` for both and
`FromInt32` is not strictly increasing there. -/
theorem FromInt32_not_strictly_increasing :
    (-(2 : ℤ) ^ 31 ≤ 20000000 ∧ (20000001 : ℤ) < 2 ^ 31) ∧ (20000000 : ℤ) < 20000001 ∧
    FromInt32 Real.exp 20000000 = 1 - vsn ∧ FromInt32 Real.exp 20000001 = 1 - vsn ∧
    ¬ (FromInt32 Real.exp 20000000 < FromInt32 Real.exp 20000001) := by
  have h1 : FromInt32 Real.exp 20000000 = 1 - vsn := FromInt32_of_large (by norm_num)
  have h2 : FromInt32 Real.exp 20000001 = 1 - vsn := FromInt32_of_large (by norm_num)
  refine ⟨by norm_num, by norm_num, h1, h2, ?_⟩
  rw [h1, h2]
  exact lt_irrefl _

/-- C11, amended: `FromInt32` is non-decreasing: for all integers `i < j`,
`FromInt32 i ≤ FromInt32 j`.  It is strictly increasing exactly where the clamp does not
merge the two values: for `i < j`, `FromInt32 i < FromInt32 j` if and only if the logistic
value of `j` is above `vsn` and that of `i` is below `1 - vsn`, which holds if and only if
`i ≤ 13815509` and `-13815509 ≤ j`; in particular whenever
`-13815509 ≤ i < j ≤ 13815509`. -/
theorem FromInt32_monotone (i j : ℤ) (h : i < j) :
    FromInt32 Real.exp i ≤ FromInt32 Real.exp j ∧
    (FromInt32 Real.exp i < FromInt32 Real.exp j ↔
      (vsn : ℝ) < 1 / (1 + Real.exp (-vsn * (j : ℝ))) ∧
        1 / (1 + Real.exp (-vsn * (i : ℝ))) < 1 - vsn) ∧
    (FromInt32 Real.exp i < FromInt32 Real.exp j ↔ i ≤ 13815509 ∧ -13815509 ≤ j) ∧
    (-13815509 ≤ i → j ≤ 13815509 → FromInt32 Real.exp i < FromInt32 Real.exp j) :=
  ⟨FromInt32_le_of_le h.le, FromInt32_lt_iff_logistic h, FromInt32_lt_iff h,
    fun hi hj => (FromInt32_lt_iff h).mpr ⟨by omega, by omega⟩⟩

/-- Witness for C11 (amended) at `i = 13500000`, `j = 13500001`, where the clamp does not
act. -/
theorem FromInt32_monotone_witness :
    (13500000 : ℤ) < 13500001 ∧
    FromInt32 Real.exp 13500000 ≤ FromInt32 Real.exp 13500001 ∧
    FromInt32 Real.exp 13500000 < FromInt32 Real.exp 13500001 :=
  have h := FromInt32_monotone 13500000 13500001 (by norm_num)
  ⟨by norm_num, h.1, h.2.2.1.mpr ⟨by norm_num, by norm_num⟩⟩

/-- C12, as stated, fails at the 32-bit integer `i = -2^31`: its 32-bit negation is
`-2^31` again, `FromInt32` returns `vsn` there, and the sum is `2 * vsn`, not `1`. -/
theorem neg32_min_breaks_symmetry :
    neg32 (-2147483648) = -2147483648 ∧
    FromInt32 Real.exp (-2147483648) + FromInt32 Real.exp (neg32 (-2147483648)) = 2 * vsn ∧
    FromInt32 Real.exp (-2147483648) + FromInt32 Real.exp (neg32 (-2147483648)) ≠ 1 := by
  have hn : neg32 (-2147483648) = -2147483648 := by decide
  have hf : FromInt32 Real.exp (-2147483648) = vsn := FromInt32_of_small (by norm_num)
  have hv : (vsn : ℝ) < 1 / 2 := vsn_lt_half
  refine ⟨hn, ?_, ?_⟩
  · rw [hn, hf]
    ring
  · rw [hn, hf]
    intro h
    linarith

/-- C12, amended: for every 32-bit integer `i` other than `-2^31`, with `-i` computed as a
32-bit integer, `FromInt32 i + FromInt32 (-i) = 1`; and
`FromInt32 0 = ToOI (1/2) = 1/2`. -/
theorem FromInt32_add_neg32 (i : ℤ) (h1 : -2 ^ 31 < i) (h2 : i < 2 ^ 31) :
    FromInt32 Real.exp i + FromInt32 Real.exp (neg32 i) = 1 ∧
    FromInt32 Real.exp 0 = ToOI (1 / 2) ∧ ToOI (1 / 2 : ℝ) = 1 / 2 := by
  refine ⟨?_, ?_, ToOI_half⟩
  · rw [neg32_eq_neg h1 h2]
    exact FromInt32_add_neg i
  · rw [FromInt32_zero, ToOI_half]

/-- Witness for C12 (amended) at `i = 1000`. -/
theorem FromInt32_add_neg32_witness :
    (-(2 : ℤ) ^ 31 < 1000 ∧ (1000 : ℤ) < 2 ^ 31) ∧
    FromInt32 Real.exp 1000 + FromInt32 Real.exp (neg32 1000) = 1 :=
  ⟨by norm_num, (FromInt32_add_neg32 1000 (by norm_num) (by norm_num)).1⟩

end UOI
